import Mathlib

/-!
Verification of the per-shard storage engine excerpt (database.cc) against its
natural-language specification.  Shallow embedding: the C++ functions named in
the claims are translated into executable Lean definitions, and each claim is
settled by a theorem about those definitions.
-/

set_option maxHeartbeats 1000000

namespace Scylla

/-! ### Atomic cells and `compare_atomic_cell_for_merge` (database.cc:2284-2315) -/

/-- Embedding of `atomic_cell_view` as used by `compare_atomic_cell_for_merge`:
a 64-bit logical timestamp, a liveness flag, the value bytes, whether the cell
is live with a TTL, its expiry time point and its deletion time point
(both `gc_clock` seconds with a signed 64-bit representation). -/
structure AtomicCell where
  timestamp : Int
  live : Bool
  value : List Nat
  hasTtl : Bool
  expiry : Int
  deletionTime : Int
deriving DecidableEq

/-- Embedding of `compare_unsigned` on `bytes_view`: byte-lexicographic
comparison (memcmp over the common prefix, then by length). -/
def compare_unsigned : List Nat → List Nat → Int
  | [], [] => 0
  | [], _ :: _ => -1
  | _ :: _, [] => 1
  | a :: as, b :: bs =>
    if a < b then -1 else if b < a then 1 else compare_unsigned as bs

/-- The C cast `(uint32_t)` applied to the 64-bit deletion-time count. -/
def toU32 (t : Int) : Nat := (t % (2 ^ 32)).toNat

/-- Embedding of `compare_atomic_cell_for_merge` (database.cc:2284-2315).
`is_live_and_has_ttl()` is `live ∧ hasTtl`. -/
def compare_atomic_cell_for_merge (left right : AtomicCell) : Int :=
  if left.timestamp ≠ right.timestamp then
    (if left.timestamp > right.timestamp then 1 else -1)
  else if left.live ≠ right.live then
    (if left.live = true then -1 else 1)
  else if left.live = true then
    (if compare_unsigned left.value right.value ≠ 0 then
      compare_unsigned left.value right.value
     else if (left.live = true ∧ left.hasTtl = true) ∧ (right.live = true ∧ right.hasTtl = true)
             ∧ left.expiry ≠ right.expiry then
       (if left.expiry < right.expiry then -1 else 1)
     else 0)
  else
    (if left.deletionTime ≠ right.deletionTime then
      (if toU32 left.deletionTime < toU32 right.deletionTime then -1 else 1)
     else 0)

/-- A cell that is live with a TTL expiring at 5. -/
def cellExpiryFive : AtomicCell := ⟨10, true, [1], true, 5, 0⟩

/-- The same cell but with the later expiry 10. -/
def cellExpiryTen : AtomicCell := ⟨10, true, [1], true, 10, 0⟩

/-- C1 counterexample: two live cells with equal timestamps, equal values and
both carrying a TTL; the cell with the earlier expiry compares as the LOSER
(`compare_atomic_cell_for_merge` returns -1, so the later expiry wins),
refuting the claim that the cell with the earlier expiry wins. -/
theorem C1_earlier_expiry_loses :
    cellExpiryFive.timestamp = cellExpiryTen.timestamp ∧
    cellExpiryFive.live = true ∧ cellExpiryTen.live = true ∧
    cellExpiryFive.value = cellExpiryTen.value ∧
    cellExpiryFive.hasTtl = true ∧ cellExpiryTen.hasTtl = true ∧
    cellExpiryFive.expiry < cellExpiryTen.expiry ∧
    compare_atomic_cell_for_merge cellExpiryFive cellExpiryTen = -1 ∧
    compare_atomic_cell_for_merge cellExpiryTen cellExpiryFive = 1 := by
  decide

/-- C1 (amended): `compare_atomic_cell_for_merge` follows the total order of
section 3 with the expiry clause reversed: the one with the higher timestamp
wins; at equal timestamp a deleted cell beats a live cell; if both are live the
one with the larger byte-lexicographic value wins, and if the values are also
equal and both carry a TTL, the cell with the LATER expiry wins; if both are
deleted the larger deletion time, compared as unsigned 32-bit seconds, wins
(the winner is the cell that compares greater). -/
theorem C1_cell_merge_order (l r : AtomicCell) :
    (l.timestamp > r.timestamp → compare_atomic_cell_for_merge l r = 1) ∧
    (l.timestamp < r.timestamp → compare_atomic_cell_for_merge l r = -1) ∧
    (l.timestamp = r.timestamp → l.live = false → r.live = true →
      compare_atomic_cell_for_merge l r = 1) ∧
    (l.timestamp = r.timestamp → l.live = true → r.live = false →
      compare_atomic_cell_for_merge l r = -1) ∧
    (l.timestamp = r.timestamp → l.live = true → r.live = true →
      compare_unsigned l.value r.value ≠ 0 →
      compare_atomic_cell_for_merge l r = compare_unsigned l.value r.value) ∧
    (l.timestamp = r.timestamp → l.live = true → r.live = true →
      compare_unsigned l.value r.value = 0 → l.hasTtl = true → r.hasTtl = true →
      l.expiry > r.expiry → compare_atomic_cell_for_merge l r = 1) ∧
    (l.timestamp = r.timestamp → l.live = true → r.live = true →
      compare_unsigned l.value r.value = 0 → l.hasTtl = true → r.hasTtl = true →
      l.expiry < r.expiry → compare_atomic_cell_for_merge l r = -1) ∧
    (l.timestamp = r.timestamp → l.live = false → r.live = false →
      toU32 l.deletionTime > toU32 r.deletionTime →
      compare_atomic_cell_for_merge l r = 1) ∧
    (l.timestamp = r.timestamp → l.live = false → r.live = false →
      toU32 l.deletionTime < toU32 r.deletionTime →
      compare_atomic_cell_for_merge l r = -1) := by
  refine ⟨?_, ?_, ?_, ?_, ?_, ?_, ?_, ?_, ?_⟩ <;>
    intros <;>
    unfold compare_atomic_cell_for_merge <;>
    split_ifs <;>
    simp_all <;>
    omega

/-- C1 witness: the amended order theorem applied to the concrete cells,
discharging the hypotheses of its timestamp clause. -/
theorem C1_cell_merge_order_witness :
    compare_atomic_cell_for_merge (AtomicCell.mk 7 true [] false 0 0)
      (AtomicCell.mk 3 true [] false 0 0) = 1 :=
  (C1_cell_merge_order (AtomicCell.mk 7 true [] false 0 0)
      (AtomicCell.mk 3 true [] false 0 0)).1 (by decide)

/-! ### Replay positions and the write path
(database.cc:2461-2507, 2620-2660) -/

/-- Modelled from the spec: `db::replay_position` is not part of the excerpt;
the spec describes it as a monotonic identifier "(segment-id, offset)" of a
commit-log append, compared lexicographically.  The default-constructed value
`db::replay_position()` is `⟨0, 0⟩`. -/
structure ReplayPosition where
  id : Nat
  pos : Nat
deriving DecidableEq

/-- Lexicographic strict order on replay positions (`operator<`). -/
def rp_lt (a b : ReplayPosition) : Prop :=
  a.id < b.id ∨ (a.id = b.id ∧ a.pos < b.pos)

instance (a b : ReplayPosition) : Decidable (rp_lt a b) := by
  unfold rp_lt
  infer_instance

/-- A frozen mutation: the column-family id it targets plus opaque payload. -/
structure FrozenMutation where
  cfId : Nat
  payload : Nat
deriving DecidableEq

/-- Errors raised on the write path: `replay_position_reordered_exception`
(database.cc:2505) and `no_such_column_family` (database.cc:2111). -/
inductive WriteError
  | replay_position_reordered
  | no_such_column_family
deriving DecidableEq

/-- The column-family state relevant to the apply path: the active memtable's
contents (each entry recording the mutation and the replay position it was
applied with) and `_highest_flushed_rp`. -/
structure ColumnFamily where
  memtable : List (FrozenMutation × ReplayPosition)
  highest_flushed_rp : ReplayPosition
deriving DecidableEq

/-- Embedding of `column_family::check_valid_rp` (database.cc:2502-2507):
throws `replay_position_reordered_exception` iff `rp < _highest_flushed_rp`. -/
def ColumnFamily.check_valid_rp (cf : ColumnFamily) (rp : ReplayPosition) :
    Except WriteError Unit :=
  if rp_lt rp cf.highest_flushed_rp then
    Except.error WriteError.replay_position_reordered
  else
    Except.ok ()

/-- Embedding of the frozen-mutation overload
`column_family::apply(const frozen_mutation&, const schema_ptr&, const db::replay_position&)`
(database.cc:2472-2482): validates the replay position first, then applies the
mutation to the active memtable. -/
def ColumnFamily.apply_frozen (cf : ColumnFamily) (m : FrozenMutation)
    (rp : ReplayPosition) : Except WriteError ColumnFamily :=
  match cf.check_valid_rp rp with
  | Except.error e => Except.error e
  | Except.ok _ => Except.ok { cf with memtable := (m, rp) :: cf.memtable }

/-- Embedding of the non-frozen overload
`column_family::apply(const mutation&, const db::replay_position&)`
(database.cc:2461-2470): applies straight to the active memtable, with no
replay-position validation and no possibility of error (the return type is a
plain state, not an `Except`). -/
def ColumnFamily.apply_mutation (cf : ColumnFamily) (m : FrozenMutation)
    (rp : ReplayPosition) : ColumnFamily :=
  { cf with memtable := (m, rp) :: cf.memtable }

/-- The per-shard database state relevant to the apply path: the map from
column-family id to column family. -/
structure Database where
  column_families : List (Nat × ColumnFamily)
deriving DecidableEq

/-- Embedding of `database::find_column_family(const utils::UUID&)`
(database.cc:2107-2113); absence is reported to callers as
`no_such_column_family`, modelled here by `none`. -/
def Database.find_column_family (db : Database) (uuid : Nat) :
    Option ColumnFamily :=
  (db.column_families.find? (fun p => p.1 == uuid)).map (fun p => p.2)

/-- Replace the state of the column family registered under `uuid`. -/
def Database.update_cf (db : Database) (uuid : Nat) (cf : ColumnFamily) :
    Database :=
  ⟨db.column_families.map (fun p => if p.1 == uuid then (p.1, cf) else p)⟩

/-- Embedding of `database::apply_in_memory` (database.cc:2620-2629): looks
the column family up; if it is gone the condition is logged and the mutation
is dropped silently (the call completes without error and the state is
unchanged); otherwise the frozen-mutation overload of `apply` runs and its
`replay_position_reordered` error propagates. -/
def Database.apply_in_memory (db : Database) (m : FrozenMutation)
    (rp : ReplayPosition) : Except WriteError Database :=
  match db.find_column_family m.cfId with
  | none => Except.ok db
  | some cf =>
    match cf.apply_frozen m rp with
    | Except.error e => Except.error e
    | Except.ok cf2 => Except.ok (db.update_cf m.cfId cf2)

/-- Outcome of `database::do_apply` in a model where the successive replay
positions produced by `commitlog->add_entry` are supplied as a list: `ok` when
some attempt applied the mutation, `failed` when an error propagated to the
caller, `pending` when the supplied appends ran out while the code was still
retrying (the real code would keep re-appending). -/
inductive DoApplyOutcome
  | ok (db : Database)
  | failed (e : WriteError)
  | pending
deriving DecidableEq

/-- The retry loop of `database::do_apply` (database.cc:2641-2657): each
commit-log append yields a replay position and the mutation is applied in
memory; a `replay_position_reordered` error is caught, logged, and the whole
write is re-run (`this->apply(s, m)`), i.e. the mutation is re-appended to the
commit log and the next replay position is tried. -/
def do_apply_loop (db : Database) (m : FrozenMutation) :
    List ReplayPosition → DoApplyOutcome
  | [] => DoApplyOutcome.pending
  | rp :: rest =>
    match db.apply_in_memory m rp with
    | Except.ok db2 => DoApplyOutcome.ok db2
    | Except.error WriteError.replay_position_reordered => do_apply_loop db m rest
    | Except.error e => DoApplyOutcome.failed e

/-- Embedding of `database::do_apply` (database.cc:2631-2660): the column
family is looked up first (`no_such_column_family` propagates to the caller),
then the commit-log append/apply/retry loop runs. -/
def Database.do_apply (db : Database) (m : FrozenMutation)
    (rps : List ReplayPosition) : DoApplyOutcome :=
  match db.find_column_family m.cfId with
  | none => DoApplyOutcome.failed WriteError.no_such_column_family
  | some _ => do_apply_loop db m rps

/-- Concrete replay position (3, 0). -/
def rp3 : ReplayPosition := ⟨3, 0⟩

/-- Concrete replay position (4, 0). -/
def rp4 : ReplayPosition := ⟨4, 0⟩

/-- Concrete replay position (7, 0). -/
def rp7 : ReplayPosition := ⟨7, 0⟩

/-- A column family with an empty memtable whose highest flushed replay
position is (5, 0). -/
def cf0 : ColumnFamily := ⟨[], ⟨5, 0⟩⟩

/-- A database holding `cf0` under column-family id 1. -/
def db0 : Database := ⟨[(1, cf0)]⟩

/-- A frozen mutation targeting column-family id 1. -/
def m0 : FrozenMutation := ⟨1, 42⟩

/-- C2 counterexample: with the highest flushed replay position at (5, 0),
the commit-log appends yield replay positions (3,0), (4,0), (7,0): both the
original attempt and the first retry raise the reordering error, yet the write
is retried again and succeeds, refuting the claim that the write is retried
only once and fails if the reordering persists. -/
theorem C2_retry_is_not_once :
    rp_lt rp3 cf0.highest_flushed_rp ∧ rp_lt rp4 cf0.highest_flushed_rp ∧
    db0.do_apply m0 [rp3, rp4, rp7] =
      DoApplyOutcome.ok (db0.update_cf m0.cfId
        { cf0 with memtable := [(m0, rp7)] }) := by
  decide

/-- C2 (amended): `column_family::apply(frozen_mutation, schema, rp)` raises
the replay-position-reordered error exactly when `rp` is lower than the
highest flushed replay position (leaving the memtable unchanged in that case),
and on that error the database layer retries the write by re-appending it to
the commit log, again after every further reordering error, until an append's
replay position is no longer below the highest flushed position; a persisting
reordering therefore leads to further retries, never to a failure of the
write. -/
theorem C2_rp_reordering_retry :
    (∀ (cf : ColumnFamily) (m : FrozenMutation) (rp : ReplayPosition),
      (rp_lt rp cf.highest_flushed_rp →
        cf.apply_frozen m rp = Except.error WriteError.replay_position_reordered) ∧
      (¬ rp_lt rp cf.highest_flushed_rp →
        cf.apply_frozen m rp =
          Except.ok { cf with memtable := (m, rp) :: cf.memtable })) ∧
    (∀ (db : Database) (m : FrozenMutation) (cf : ColumnFamily)
        (bad : List ReplayPosition) (rp : ReplayPosition)
        (rest : List ReplayPosition),
      db.find_column_family m.cfId = some cf →
      (∀ b ∈ bad, rp_lt b cf.highest_flushed_rp) →
      ¬ rp_lt rp cf.highest_flushed_rp →
      db.do_apply m (bad ++ rp :: rest) =
        DoApplyOutcome.ok (db.update_cf m.cfId
          { cf with memtable := (m, rp) :: cf.memtable })) := by
  constructor
  · intro cf m rp
    constructor <;> intro h <;>
      simp [ColumnFamily.apply_frozen, ColumnFamily.check_valid_rp, h]
  · intro db m cf bad rp rest hfind
    induction bad with
    | nil =>
      intro _ hrp
      simp [Database.do_apply, hfind, do_apply_loop, Database.apply_in_memory,
        ColumnFamily.apply_frozen, ColumnFamily.check_valid_rp, hrp]
    | cons b bs ih =>
      intro hbad hrp
      have hb : rp_lt b cf.highest_flushed_rp := hbad b (by simp)
      have hbs : ∀ x ∈ bs, rp_lt x cf.highest_flushed_rp := by
        intro x hx
        exact hbad x (by simp [hx])
      have htail := ih hbs hrp
      simp only [Database.do_apply, hfind] at htail ⊢
      simpa [do_apply_loop, Database.apply_in_memory, hfind,
        ColumnFamily.apply_frozen, ColumnFamily.check_valid_rp, hb] using htail

/-- C2 witness: the amended theorem applied to concrete states: a reordered
replay position raises the error, and a run with two reordered appends
followed by a valid one succeeds. -/
theorem C2_rp_reordering_retry_witness :
    cf0.apply_frozen m0 rp3 = Except.error WriteError.replay_position_reordered ∧
    db0.do_apply m0 [rp3, rp4, rp7] =
      DoApplyOutcome.ok (db0.update_cf m0.cfId
        { cf0 with memtable := (m0, rp7) :: cf0.memtable }) :=
  ⟨(C2_rp_reordering_retry.1 cf0 m0 rp3).1 (by decide),
   C2_rp_reordering_retry.2 db0 m0 cf0 [rp3, rp4] rp7 []
     (by decide) (by decide) (by decide)⟩

/-- C7 counterexample: for a mutation whose column-family id is not present,
`database::apply` (via `do_apply`) does not complete without error: the
initial `find_column_family` raises the typed `no_such_column_family` error. -/
theorem C7_unknown_cf_apply_fails :
    (Database.mk []).find_column_family m0.cfId = none ∧
    (Database.mk []).do_apply m0 [rp7] =
      DoApplyOutcome.failed WriteError.no_such_column_family := by
  decide

/-- C7 (amended): for a frozen mutation whose column-family id is not present,
a write through `database::apply`/`do_apply` fails with the typed
`no_such_column_family` error raised by the initial lookup; the logged silent
drop (completing without error and leaving the database unchanged) happens in
`database::apply_in_memory`, i.e. only when the column family disappears
between the commit-log append and the in-memory apply. -/
theorem C7_unknown_cf_dropped_in_memory :
    ∀ (db : Database) (m : FrozenMutation) (rp : ReplayPosition)
      (rps : List ReplayPosition),
      db.find_column_family m.cfId = none →
      db.do_apply m rps = DoApplyOutcome.failed WriteError.no_such_column_family ∧
      db.apply_in_memory m rp = Except.ok db := by
  intro db m rp rps h
  simp [Database.do_apply, Database.apply_in_memory, h]

/-- C7 witness: the amended theorem applied to the empty database. -/
theorem C7_unknown_cf_dropped_in_memory_witness :
    (Database.mk []).do_apply m0 [rp7] =
      DoApplyOutcome.failed WriteError.no_such_column_family ∧
    (Database.mk []).apply_in_memory m0 rp7 = Except.ok (Database.mk []) :=
  C7_unknown_cf_dropped_in_memory (Database.mk []) m0 rp7 [rp7] (by decide)

/-- C10: the non-frozen overload `column_family::apply(mutation, rp)` performs
no replay-position validation: for every `rp`, including one strictly below
the highest flushed replay position, it applies the mutation to the active
memtable and cannot raise the replay-position-reordered error (its type admits
no error), while the frozen overload raises exactly that error on the same
input. -/
theorem C10_nonfrozen_apply_unchecked :
    ∀ (cf : ColumnFamily) (m : FrozenMutation) (rp : ReplayPosition),
      cf.apply_mutation m rp = { cf with memtable := (m, rp) :: cf.memtable } ∧
      (rp_lt rp cf.highest_flushed_rp →
        cf.apply_mutation m rp = { cf with memtable := (m, rp) :: cf.memtable } ∧
        cf.apply_frozen m rp =
          Except.error WriteError.replay_position_reordered) := by
  intro cf m rp
  refine ⟨rfl, fun h => ⟨rfl, ?_⟩⟩
  simp [ColumnFamily.apply_frozen, ColumnFamily.check_valid_rp, h]

/-- C10 witness: the overloads applied at a replay position strictly below the
highest flushed one. -/
theorem C10_nonfrozen_apply_unchecked_witness :
    cf0.apply_mutation m0 rp3 = { cf0 with memtable := [(m0, rp3)] } ∧
    cf0.apply_frozen m0 rp3 = Except.error WriteError.replay_position_reordered :=
  (C10_nonfrozen_apply_unchecked cf0 m0 rp3).2 (by decide)

/-! ### Single-key clustering-range filter (database.cc:272-322) -/

/-- The sstable statistics metadata consulted by `filter_sstable_for_reader`:
`min_timestamp`, `max_timestamp` and the size of the estimated
tombstone-drop-time histogram (`estimated_tombstone_drop_time.bin.map.size()`),
plus the generation as identity. -/
structure SStableMeta where
  min_timestamp : Int
  max_timestamp : Int
  tombstone_hist_size : Nat
  generation : Nat
deriving DecidableEq

/-- `std::numeric_limits<int64_t>::max()`, the initial value of
`min_timestamp` in `filter_sstable_for_reader` (database.cc:302). -/
def int64_max : Int := 2 ^ 63 - 1

/-- The value `min_timestamp` holds after the clustering-overlap pass: the
minimum `min_timestamp` over the sstables kept by `contains_rows`
(database.cc:302-310).  The type-dependent overlap check `contains_rows` is
abstracted as a boolean predicate parameter. -/
def ck_filter_min_timestamp (contains_rows : SStableMeta → Bool)
    (ssts : List SStableMeta) : Int :=
  (ssts.filter contains_rows).foldl (fun m s => min m s.min_timestamp) int64_max

/-- Embedding of the `sstable_has_relevant_tombstone` lambda
(database.cc:311-315). -/
def sstable_has_relevant_tombstone (min_timestamp : Int) (s : SStableMeta) :
    Bool :=
  decide (s.max_timestamp > min_timestamp) && decide (s.tombstone_hist_size ≠ 0)

/-- Embedding of the clustering tail of `filter_sstable_for_reader`
(database.cc:302-318): first partition by the clustering-overlap check
(accumulating `min_timestamp` over the kept sstables), then re-admit rejected
sstables that carry a relevant tombstone and erase the rest.  `std::partition`
reorders within each class; the embedding keeps the retained multiset. -/
def filter_sstable_for_reader_ck (contains_rows : SStableMeta → Bool)
    (ssts : List SStableMeta) : List SStableMeta :=
  let kept := ssts.filter contains_rows
  let rejected := ssts.filter (fun s => !(contains_rows s))
  kept ++ rejected.filter
    (sstable_has_relevant_tombstone (ck_filter_min_timestamp contains_rows ssts))

/-- The fold computing `min_timestamp` never exceeds its accumulator. -/
theorem foldl_min_le_acc (l : List SStableMeta) (acc : Int) :
    l.foldl (fun m s => min m s.min_timestamp) acc ≤ acc := by
  induction l generalizing acc with
  | nil => simp
  | cons a as ih =>
    simp only [List.foldl_cons]
    exact le_trans (ih (min acc a.min_timestamp)) (min_le_left _ _)

/-- The fold computing `min_timestamp` bounds every list member. -/
theorem foldl_min_le_mem (l : List SStableMeta) (acc : Int) (x : SStableMeta)
    (hx : x ∈ l) :
    l.foldl (fun m s => min m s.min_timestamp) acc ≤ x.min_timestamp := by
  induction l generalizing acc with
  | nil => cases hx
  | cons a as ih =>
    simp only [List.foldl_cons]
    rcases List.mem_cons.mp hx with h | h
    · subst h
      exact le_trans (foldl_min_le_acc as _) (min_le_right _ _)
    · exact ih (min acc a.min_timestamp) h

/-- C3: in the single-key clustering-range filter, after the
clustering-overlap pass establishes `min_timestamp` as the minimum
min-timestamp of the kept sstables, every kept sstable is retained, and an
sstable rejected by the overlap check is retained exactly when its
`max_timestamp` exceeds `min_timestamp` and its estimated tombstone-drop-time
histogram is non-empty; all other rejected sstables are dropped. -/
theorem C3_tombstone_rescue :
    ∀ (contains_rows : SStableMeta → Bool) (ssts : List SStableMeta),
      (∀ t ∈ ssts, contains_rows t = true →
        t ∈ filter_sstable_for_reader_ck contains_rows ssts ∧
        ck_filter_min_timestamp contains_rows ssts ≤ t.min_timestamp) ∧
      (∀ s ∈ ssts, contains_rows s = false →
        (s ∈ filter_sstable_for_reader_ck contains_rows ssts ↔
          ck_filter_min_timestamp contains_rows ssts < s.max_timestamp ∧
          s.tombstone_hist_size ≠ 0)) := by
  intro contains_rows ssts
  constructor
  · intro t ht hc
    constructor
    · simp [filter_sstable_for_reader_ck, List.mem_append, List.mem_filter,
        ht, hc]
    · exact foldl_min_le_mem _ _ _ (List.mem_filter.mpr ⟨ht, hc⟩)
  · intro s hs hc
    simp [filter_sstable_for_reader_ck, sstable_has_relevant_tombstone,
      List.mem_append, List.mem_filter, hs, hc]

/-- An sstable kept by the overlap check in the concrete scenario. -/
def sstKept : SStableMeta := ⟨100, 200, 0, 1⟩

/-- A rejected sstable carrying a relevant tombstone (max timestamp 300 above
the kept minimum 100, non-empty histogram). -/
def sstRescued : SStableMeta := ⟨50, 300, 2, 2⟩

/-- A rejected sstable with no relevant tombstone. -/
def sstDropped : SStableMeta := ⟨50, 60, 0, 3⟩

/-- The overlap check of the concrete scenario: only generation 1 overlaps. -/
def containsGen1 : SStableMeta → Bool := fun s => s.generation == 1

/-- The sstable list of the concrete scenario. -/
def sstsScenario : List SStableMeta := [sstKept, sstRescued, sstDropped]

/-- C3 witness: the filter theorem applied to the concrete scenario: the kept
sstable is retained and the tombstone-rescue characterisation holds for a
rejected sstable. -/
theorem C3_tombstone_rescue_witness :
    sstKept ∈ filter_sstable_for_reader_ck containsGen1 sstsScenario ∧
    (sstRescued ∈ filter_sstable_for_reader_ck containsGen1 sstsScenario ↔
      ck_filter_min_timestamp containsGen1 sstsScenario < sstRescued.max_timestamp ∧
      sstRescued.tombstone_hist_size ≠ 0) :=
  ⟨((C3_tombstone_rescue containsGen1 sstsScenario).1 sstKept (by decide)
      (by decide)).1,
   (C3_tombstone_rescue containsGen1 sstsScenario).2 sstRescued (by decide)
      (by decide)⟩

/-! ### Sstable discovery: `column_family::populate` (database.cc:1504-1618) -/

/-- The sstable component kinds `populate` distinguishes: `TOC`,
`TemporaryTOC`, `TemporaryStatistics`, and every other component. -/
inductive ComponentType
  | TOC
  | TemporaryTOC
  | TemporaryStatistics
  | otherComponent
deriving DecidableEq

/-- The per-generation accumulated state of the scan (database.cc:1510-1514). -/
inductive GenStatus
  | has_some_file
  | has_toc_file
  | has_temporary_toc_file
deriving DecidableEq

/-- Errors raised by `populate`: `sstables::malformed_sstable_exception`. -/
inductive PopulateError
  | malformed_sstable
deriving DecidableEq

/-- One step of the per-generation verifier state machine
(database.cc:1527-1554): `TemporaryStatistics` files are eagerly removed and
never touch the verifier; once `has_toc_file` is reached, another `TOC` or a
`TemporaryTOC` is a malformed-sstable error; otherwise `TOC` moves to
`has_toc_file`, `TemporaryTOC` to `has_temporary_toc_file`, and any other
component records `has_some_file` on first sight. -/
def verifier_update (st : Option GenStatus) (c : ComponentType) :
    Except PopulateError (Option GenStatus) :=
  match c with
  | ComponentType.TemporaryStatistics => Except.ok st
  | _ =>
    match st with
    | some cur =>
      if cur = GenStatus.has_toc_file then
        match c with
        | ComponentType.TOC => Except.error PopulateError.malformed_sstable
        | ComponentType.TemporaryTOC => Except.error PopulateError.malformed_sstable
        | _ => Except.ok (some cur)
      else
        match c with
        | ComponentType.TOC => Except.ok (some GenStatus.has_toc_file)
        | ComponentType.TemporaryTOC => Except.ok (some GenStatus.has_temporary_toc_file)
        | _ => Except.ok (some cur)
    | none =>
      match c with
      | ComponentType.TOC => Except.ok (some GenStatus.has_toc_file)
      | ComponentType.TemporaryTOC => Except.ok (some GenStatus.has_temporary_toc_file)
      | _ => Except.ok (some GenStatus.has_some_file)

/-- The verifier state machine run from a given state over the generation's
component files, in scan order. -/
def scan_generation_from (acc : Option GenStatus) :
    List ComponentType → Except PopulateError (Option GenStatus)
  | [] => Except.ok acc
  | c :: cs =>
    match verifier_update acc c with
    | Except.error e => Except.error e
    | Except.ok acc2 => scan_generation_from acc2 cs

/-- The accumulated verifier state of one generation after the scan. -/
def scan_generation (comps : List ComponentType) :
    Except PopulateError (Option GenStatus) :=
  scan_generation_from none comps

/-- What the post-scan pass does with one generation. -/
inductive PostScanAction
  | remove_temp_toc
  | ignored
  | keep
deriving DecidableEq

/-- Embedding of the post-scan pass of `populate` (database.cc:1593-1612):
a generation ending in `has_temporary_toc_file` is removed on shard 0 and
ignored (left in place) on every other shard; any other state except
`has_toc_file` is a fatal malformed-sstable error. -/
def populate_post_scan (cpu_id : Nat) (st : GenStatus) :
    Except PopulateError PostScanAction :=
  if st = GenStatus.has_temporary_toc_file then
    (if cpu_id ≠ 0 then Except.ok PostScanAction.ignored
     else Except.ok PostScanAction.remove_temp_toc)
  else if st ≠ GenStatus.has_toc_file then
    Except.error PopulateError.malformed_sstable
  else
    Except.ok PostScanAction.keep

/-- The scan ends in `has_some_file` exactly when it started with no TOC
knowledge and the component list holds neither a `TOC` nor a `TemporaryTOC`. -/
theorem scan_generation_from_some_file (comps : List ComponentType) :
    ∀ (acc : Option GenStatus) (st : GenStatus),
      scan_generation_from acc comps = Except.ok (some st) →
      (st = GenStatus.has_some_file ↔
        ((acc = none ∨ acc = some GenStatus.has_some_file) ∧
          ComponentType.TOC ∉ comps ∧ ComponentType.TemporaryTOC ∉ comps)) := by
  induction comps with
  | nil =>
    intro acc st h
    simp only [scan_generation_from] at h
    cases h
    simp
  | cons c cs ih =>
    intro acc st h
    simp only [scan_generation_from] at h
    cases c with
    | TOC =>
      have hupd : ∀ acc2, verifier_update acc ComponentType.TOC = Except.ok acc2 →
          acc2 = some GenStatus.has_toc_file := by
        intro acc2 hu
        cases acc with
        | none => simpa [verifier_update] using hu.symm
        | some cur =>
          cases cur <;> simp [verifier_update] at hu <;> exact hu.symm
      cases hu : verifier_update acc ComponentType.TOC with
      | error e => rw [hu] at h; cases h
      | ok acc2 =>
        rw [hu] at h
        have := ih acc2 st h
        rw [hupd acc2 hu] at this
        simp only [this]
        simp
    | TemporaryTOC =>
      have hupd : ∀ acc2, verifier_update acc ComponentType.TemporaryTOC = Except.ok acc2 →
          acc2 = some GenStatus.has_temporary_toc_file := by
        intro acc2 hu
        cases acc with
        | none => simpa [verifier_update] using hu.symm
        | some cur =>
          cases cur <;> simp [verifier_update] at hu <;> exact hu.symm
      cases hu : verifier_update acc ComponentType.TemporaryTOC with
      | error e => rw [hu] at h; cases h
      | ok acc2 =>
        rw [hu] at h
        have := ih acc2 st h
        rw [hupd acc2 hu] at this
        simp only [this]
        simp
    | TemporaryStatistics =>
      have hu : verifier_update acc ComponentType.TemporaryStatistics = Except.ok acc := by
        simp [verifier_update]
      rw [hu] at h
      have := ih acc st h
      simp only [this]
      simp
    | otherComponent =>
      have hupd : ∀ acc2, verifier_update acc ComponentType.otherComponent = Except.ok acc2 →
          ((acc2 = none ∨ acc2 = some GenStatus.has_some_file) ↔
            (acc = none ∨ acc = some GenStatus.has_some_file)) := by
        intro acc2 hu
        cases acc with
        | none =>
          simp [verifier_update] at hu
          simp [← hu]
        | some cur =>
          cases cur <;> simp [verifier_update] at hu <;> simp [← hu]
      cases hu : verifier_update acc ComponentType.otherComponent with
      | error e => rw [hu] at h; cases h
      | ok acc2 =>
        rw [hu] at h
        have := ih acc2 st h
        rw [this, hupd acc2 hu]
        simp

/-- C5: after scanning a column-family data directory, the post-scan pass of
`populate` raises the fatal malformed-sstable error for a generation exactly
when its accumulated state records neither a `TOC` nor a `TemporaryTOC`
component, and for a generation that ended with only a `TemporaryTOC` it
removes the partial sstable exactly on shard 0, leaving it in place on every
other shard. -/
theorem C5_populate_post_scan :
    ∀ (comps : List ComponentType) (st : GenStatus) (cpu_id : Nat),
      scan_generation comps = Except.ok (some st) →
      ((populate_post_scan cpu_id st = Except.error PopulateError.malformed_sstable) ↔
        (ComponentType.TOC ∉ comps ∧ ComponentType.TemporaryTOC ∉ comps)) ∧
      (st = GenStatus.has_temporary_toc_file →
        ((populate_post_scan cpu_id st = Except.ok PostScanAction.remove_temp_toc) ↔
          cpu_id = 0) ∧
        ((populate_post_scan cpu_id st = Except.ok PostScanAction.ignored) ↔
          cpu_id ≠ 0)) := by
  intro comps st cpu_id h
  have hchar := scan_generation_from_some_file comps none st h
  constructor
  · have herr : (populate_post_scan cpu_id st = Except.error PopulateError.malformed_sstable) ↔
        st = GenStatus.has_some_file := by
      cases st with
      | has_some_file => simp [populate_post_scan]
      | has_toc_file => simp [populate_post_scan]
      | has_temporary_toc_file =>
        by_cases h0 : cpu_id = 0 <;> simp [populate_post_scan, h0]
    rw [herr, hchar]
    simp
  · intro hst
    subst hst
    by_cases h0 : cpu_id = 0 <;> simp [populate_post_scan, h0]

/-- C5 witness: the post-scan theorem applied to a generation whose scan saw
one ordinary component followed by a `TemporaryTOC`, evaluated on shard 0. -/
theorem C5_populate_post_scan_witness :
    ((populate_post_scan 0 GenStatus.has_temporary_toc_file =
        Except.error PopulateError.malformed_sstable) ↔
      (ComponentType.TOC ∉
          [ComponentType.otherComponent, ComponentType.TemporaryTOC] ∧
        ComponentType.TemporaryTOC ∉
          [ComponentType.otherComponent, ComponentType.TemporaryTOC])) ∧
    (GenStatus.has_temporary_toc_file = GenStatus.has_temporary_toc_file →
      ((populate_post_scan 0 GenStatus.has_temporary_toc_file =
          Except.ok PostScanAction.remove_temp_toc) ↔ 0 = 0) ∧
      ((populate_post_scan 0 GenStatus.has_temporary_toc_file =
          Except.ok PostScanAction.ignored) ↔ 0 ≠ 0)) :=
  C5_populate_post_scan
    [ComponentType.otherComponent, ComponentType.TemporaryTOC]
    GenStatus.has_temporary_toc_file 0 rfl

/-! ### Per-CF flush queue: `run_cf_flush` (database.cc:76-91) -/

/-- The larger of two replay positions. -/
def rp_max (a b : ReplayPosition) : ReplayPosition :=
  if rp_lt a b then b else a

/-- Modelled from the spec: `utils/flush_queue.hh` is not part of the excerpt.
The flush queue is a map of pending flush operations keyed by replay position
whose `post` callbacks run strictly in key order; `highest_key()` returns the
largest key currently queued.  The queued keys are modelled as a list and the
largest is computed by folding `rp_max` from the default (zero) position,
which is a lower bound of every key. -/
def highest_key (queue : List ReplayPosition) : ReplayPosition :=
  queue.foldl rp_max ⟨0, 0⟩

/-- Embedding of `column_family::memtable_flush_queue::run_cf_flush`
(database.cc:79-90), restricted to the key the work is queued under: an empty
(default) replay position is replaced by the queue's current highest key when
the queue is non-empty; otherwise the given position is used. -/
def run_cf_flush_key (rp : ReplayPosition) (queue : List ReplayPosition) :
    ReplayPosition :=
  if rp = ⟨0, 0⟩ ∧ queue ≠ [] then highest_key queue else rp

/-- Lexicographic non-strict order is transitive (stated through `rp_lt`). -/
theorem rp_not_lt_trans {a b c : ReplayPosition}
    (hab : ¬ rp_lt a b) (hbc : ¬ rp_lt b c) : ¬ rp_lt a c := by
  unfold rp_lt at *
  omega

/-- `rp_max` never compares below its left argument. -/
theorem rp_max_ge_left (a b : ReplayPosition) : ¬ rp_lt (rp_max a b) a := by
  unfold rp_max rp_lt
  split_ifs with h
  · unfold rp_lt at h
    omega
  · omega

/-- `rp_max` never compares below its right argument. -/
theorem rp_max_ge_right (a b : ReplayPosition) : ¬ rp_lt (rp_max a b) b := by
  unfold rp_max rp_lt
  split_ifs with h
  · omega
  · unfold rp_lt at h
    omega

/-- `rp_max`-fold results never compare below the accumulator. -/
theorem foldl_rp_max_ge_acc (q : List ReplayPosition) (acc : ReplayPosition) :
    ¬ rp_lt (q.foldl rp_max acc) acc := by
  induction q generalizing acc with
  | nil =>
    simp only [List.foldl_nil]
    unfold rp_lt
    omega
  | cons a as ih =>
    simp only [List.foldl_cons]
    exact rp_not_lt_trans (ih (rp_max acc a)) (rp_max_ge_left acc a)

/-- `rp_max`-fold results never compare below any list member. -/
theorem foldl_rp_max_ge_mem (q : List ReplayPosition) (acc : ReplayPosition)
    (k : ReplayPosition) (hk : k ∈ q) :
    ¬ rp_lt (q.foldl rp_max acc) k := by
  induction q generalizing acc with
  | nil => cases hk
  | cons a as ih =>
    simp only [List.foldl_cons]
    rcases List.mem_cons.mp hk with h | h
    · subst h
      exact rp_not_lt_trans (foldl_rp_max_ge_acc as (rp_max acc k))
        (rp_max_ge_right acc k)
    · exact ih (rp_max acc a) h

/-- The `rp_max`-fold yields the accumulator or a member of the list. -/
theorem foldl_rp_max_mem (q : List ReplayPosition) (acc : ReplayPosition) :
    q.foldl rp_max acc = acc ∨ q.foldl rp_max acc ∈ q := by
  induction q generalizing acc with
  | nil => simp
  | cons a as ih =>
    simp only [List.foldl_cons]
    rcases ih (rp_max acc a) with h | h
    · rw [h]
      unfold rp_max
      split_ifs
      · right; simp
      · left; rfl
    · right; simp [h]

/-- C6: when `run_cf_flush` is invoked with the zero (default) replay position
while the flush queue is non-empty, the work is queued under the queue's
current highest key instead of position zero: the adopted key is a queued key
and no queued key compares above it, so replay-position ordering of post
callbacks is preserved for flushes that carry no commit-log replay
position. -/
theorem C6_zero_rp_adopts_highest_key :
    ∀ (queue : List ReplayPosition),
      queue ≠ [] →
      run_cf_flush_key ⟨0, 0⟩ queue = highest_key queue ∧
      highest_key queue ∈ queue ∧
      (∀ k ∈ queue, ¬ rp_lt (run_cf_flush_key ⟨0, 0⟩ queue) k) := by
  intro queue hne
  have hkey : run_cf_flush_key ⟨0, 0⟩ queue = highest_key queue := by
    simp [run_cf_flush_key, hne]
  refine ⟨hkey, ?_, ?_⟩
  · rcases foldl_rp_max_mem queue ⟨0, 0⟩ with h | h
    · cases queue with
      | nil => exact absurd rfl hne
      | cons a as =>
        rw [highest_key, h]
        have := foldl_rp_max_ge_mem (a :: as) ⟨0, 0⟩ a (by simp)
        rw [highest_key] at *
        rw [h] at this
        unfold rp_lt at this
        have ha : a = (⟨0, 0⟩ : ReplayPosition) := by
          cases a
          simp_all
          omega
        simp [ha]
    · exact h
  · intro k hk
    rw [hkey]
    exact foldl_rp_max_ge_mem queue ⟨0, 0⟩ k hk

/-- C6 witness: the queue holding keys (3,0) and (7,0): a zero-position flush
is queued under (7,0). -/
theorem C6_zero_rp_adopts_highest_key_witness :
    run_cf_flush_key ⟨0, 0⟩ [rp3, rp7] = highest_key [rp3, rp7] ∧
    highest_key [rp3, rp7] ∈ [rp3, rp7] ∧
    (∀ k ∈ [rp3, rp7], ¬ rp_lt (run_cf_flush_key ⟨0, 0⟩ [rp3, rp7]) k) :=
  C6_zero_rp_adopts_highest_key [rp3, rp7] (by decide)

/-! ### Sstable read path: `make_sstable_reader` (database.cc:497-529) -/

/-- A `dht::ring_position`: a token and, when present, the partition key. -/
structure RingPos where
  token : Nat
  key : Option (List Nat)
deriving DecidableEq

/-- A `query::partition_range`: singular (one position) or an interval with
optional bounds. -/
inductive PartitionRange
  | singular (pos : RingPos)
  | interval (lo hi : Option RingPos)
deriving DecidableEq

/-- `partition_range::is_singular`. -/
def PartitionRange.is_singular : PartitionRange → Bool
  | PartitionRange.singular _ => true
  | PartitionRange.interval _ _ => false

/-- The readers `make_sstable_reader` can return: the empty reader, the
single-key reader over the selected sstables, or the range reader; each
non-empty shape carries the mutations it would stream, abstractly. -/
inductive SstableReader
  | emptyReader
  | singleKey (token : Nat) (key : List Nat) (muts : List FrozenMutation)
  | rangeReader (muts : List FrozenMutation)
deriving DecidableEq

/-- The mutations a reader yields; `make_empty_reader` yields none. -/
def SstableReader.yields : SstableReader → List FrozenMutation
  | SstableReader.emptyReader => []
  | SstableReader.singleKey _ _ muts => muts
  | SstableReader.rangeReader muts => muts

/-- Embedding of `column_family::make_sstable_reader` (database.cc:497-529):
a singular range whose position carries a key takes the fast path — the empty
reader when `dht::shard_of(token)` is not the current shard, the single-key
sstable reader otherwise; every other range gets the range reader.
`dht::shard_of` is not part of the excerpt and is abstracted as a function
parameter; `single_muts` and `range_muts` abstract what the two non-empty
reader shapes would stream from the sstable set. -/
def make_sstable_reader (shard_of : Nat → Nat) (cpu_id : Nat)
    (single_muts : Nat → List Nat → List FrozenMutation)
    (range_muts : PartitionRange → List FrozenMutation)
    (pr : PartitionRange) : SstableReader :=
  match pr with
  | PartitionRange.singular pos =>
    match pos.key with
    | some k =>
      if shard_of pos.token ≠ cpu_id then SstableReader.emptyReader
      else SstableReader.singleKey pos.token k (single_muts pos.token k)
    | none => SstableReader.rangeReader (range_muts pr)
  | PartitionRange.interval _ _ => SstableReader.rangeReader (range_muts pr)

/-- C8: for every singular (single-key) partition range whose key's token maps
to a shard other than the current one, `make_sstable_reader` returns the empty
reader, which yields no mutations. -/
theorem C8_foreign_shard_empty_reader :
    ∀ (shard_of : Nat → Nat) (cpu_id : Nat)
      (single_muts : Nat → List Nat → List FrozenMutation)
      (range_muts : PartitionRange → List FrozenMutation)
      (pos : RingPos) (k : List Nat),
      pos.key = some k →
      shard_of pos.token ≠ cpu_id →
      make_sstable_reader shard_of cpu_id single_muts range_muts
          (PartitionRange.singular pos) = SstableReader.emptyReader ∧
      (make_sstable_reader shard_of cpu_id single_muts range_muts
          (PartitionRange.singular pos)).yields = [] := by
  intro shard_of cpu_id single_muts range_muts pos k hkey hshard
  have : make_sstable_reader shard_of cpu_id single_muts range_muts
      (PartitionRange.singular pos) = SstableReader.emptyReader := by
    simp [make_sstable_reader, hkey, hshard]
  exact ⟨this, by rw [this]; rfl⟩

/-- C8 witness: token 5 owned by shard 1 while running on shard 0. -/
theorem C8_foreign_shard_empty_reader_witness :
    make_sstable_reader (fun t => t % 2) 0 (fun _ _ => []) (fun _ => [])
        (PartitionRange.singular ⟨5, some [9]⟩) = SstableReader.emptyReader ∧
    (make_sstable_reader (fun t => t % 2) 0 (fun _ _ => []) (fun _ => [])
        (PartitionRange.singular ⟨5, some [9]⟩)).yields = [] :=
  C8_foreign_shard_empty_reader (fun t => t % 2) 0 (fun _ _ => [])
    (fun _ => []) ⟨5, some [9]⟩ [9] rfl (by decide)

/-! ### Copy-on-write sstable list and compaction rebuild
(database.cc:846-855, 1247-1320) -/

/-- The state of a column family's sstable list machinery.  Sstables are
identified by generation (`Nat`).  Every `sstable_set` object ever published
through `_sstables` lives in `store` (readers hold an index into it, modelling
a retained `lw_shared_ptr`); `current` is the index `_sstables` points at;
`compacted_undeleted` is `_sstables_compacted_but_not_deleted`. -/
structure SstableListState where
  store : List (List Nat)
  current : Nat
  compacted_undeleted : List Nat
deriving DecidableEq

/-- The set of sstables the current `_sstables` pointer designates. -/
def SstableListState.current_set (st : SstableListState) : List Nat :=
  st.store.getD st.current []

/-- Embedding of `column_family::add_sstable` (database.cc:850-855):
`_sstables = make_lw_shared(*_sstables)` allocates a fresh set object copied
from the current one (so in-progress reads continue using the old list), the
new sstable is inserted into the fresh object, and the pointer is swapped. -/
def SstableListState.add_sstable (st : SstableListState) (s : Nat) :
    SstableListState :=
  { store := st.store ++ [s :: st.current_set],
    current := st.store.length,
    compacted_undeleted := st.compacted_undeleted }

/-- Embedding of `column_family::rebuild_sstable_list` (database.cc:1247-1282):
walk `join(new_sstables, *current->all())`; sstables not being compacted go
into a freshly allocated set, compacted ones are pushed onto the
compacted-but-not-deleted list; then the fresh set is published by pointer
swap.  The asynchronous deletion step is modelled separately by
`delete_atomically_done`. -/
def SstableListState.rebuild_sstable_list (st : SstableListState)
    (new_sstables removed : List Nat) : SstableListState :=
  { store := st.store ++
      [(new_sstables ++ st.current_set).filter (fun t => !(removed.contains t))],
    current := st.store.length,
    compacted_undeleted := st.compacted_undeleted ++
      (new_sstables ++ st.current_set).filter (fun t => removed.contains t) }

/-- Outcome of `sstables::delete_atomically`: confirmed deletion or
`atomic_deletion_cancelled`. -/
inductive DeletionOutcome
  | success
  | cancelled
deriving DecidableEq

/-- Embedding of the continuation `rebuild_sstable_list` attaches to
`sstables::delete_atomically` (database.cc:1288-1318): whatever the outcome,
the compacted sstables are unconditionally removed from
`_sstables_compacted_but_not_deleted` ("or they could stay forever in the
set"); a cancellation is additionally logged at debug level. -/
def SstableListState.delete_atomically_done (st : SstableListState)
    (removed : List Nat) (outcome : DeletionOutcome) : SstableListState :=
  match outcome with
  | DeletionOutcome.success =>
    { st with compacted_undeleted :=
        st.compacted_undeleted.filter (fun t => !(removed.contains t)) }
  | DeletionOutcome.cancelled =>
    { st with compacted_undeleted :=
        st.compacted_undeleted.filter (fun t => !(removed.contains t)) }

/-- The mutators of the sstables list: adding a flushed or streamed sstable,
rebuilding after compaction, and the completion of an atomic delete. -/
inductive SstableListOp
  | add (s : Nat)
  | rebuild (new_sstables removed : List Nat)
  | delete_done (removed : List Nat) (outcome : DeletionOutcome)
deriving DecidableEq

/-- Run one mutator. -/
def SstableListState.apply_op (st : SstableListState) :
    SstableListOp → SstableListState
  | SstableListOp.add s => st.add_sstable s
  | SstableListOp.rebuild new_sstables removed =>
    st.rebuild_sstable_list new_sstables removed
  | SstableListOp.delete_done removed outcome =>
    st.delete_atomically_done removed outcome

/-- Run a sequence of mutators. -/
def SstableListState.apply_ops (st : SstableListState)
    (ops : List SstableListOp) : SstableListState :=
  ops.foldl SstableListState.apply_op st

/-- Every mutator leaves previously allocated set objects untouched: the store
grows, old cells keep their contents. -/
theorem apply_op_preserves_store (st : SstableListState) (op : SstableListOp)
    (i : Nat) (hi : i < st.store.length) :
    (st.apply_op op).store.getD i [] = st.store.getD i [] ∧
    st.store.length ≤ (st.apply_op op).store.length := by
  cases op with
  | add s =>
    constructor
    · simp [SstableListState.apply_op, SstableListState.add_sstable,
        List.getD, List.getElem?_append_left hi]
    · simp [SstableListState.apply_op, SstableListState.add_sstable]
  | rebuild new_sstables removed =>
    constructor
    · simp [SstableListState.apply_op, SstableListState.rebuild_sstable_list,
        List.getD, List.getElem?_append_left hi]
    · simp [SstableListState.apply_op, SstableListState.rebuild_sstable_list]
  | delete_done removed outcome =>
    cases outcome <;>
      simp [SstableListState.apply_op, SstableListState.delete_atomically_done]

/-- C9: the sstables list is copy-on-write: every mutator (adding a flushed or
streamed sstable, rebuilding the list after compaction, completing a deletion)
publishes a freshly built set and never modifies a set object previously
handed out, so a reader holding a reference (an index into the store of
published sets) observes the same set of sstables after any sequence of
concurrent mutators. -/
theorem C9_sstable_list_copy_on_write :
    ∀ (ops : List SstableListOp) (st : SstableListState) (i : Nat),
      i < st.store.length →
      (st.apply_ops ops).store.getD i [] = st.store.getD i [] := by
  intro ops
  induction ops with
  | nil => intro st i _; rfl
  | cons op rest ih =>
    intro st i hi
    have h1 := apply_op_preserves_store st op i hi
    have h2 := ih (st.apply_op op) i (Nat.lt_of_lt_of_le hi h1.2)
    calc (st.apply_ops (op :: rest)).store.getD i []
        = ((st.apply_op op).apply_ops rest).store.getD i [] := rfl
      _ = (st.apply_op op).store.getD i [] := h2
      _ = st.store.getD i [] := h1.1

/-- A concrete starting state: one published set `[1, 2]`, pointed at. -/
def sstListState0 : SstableListState := ⟨[[1, 2]], 0, []⟩

/-- C9 witness: after a flush-add and a compaction rebuild, the set a reader
obtained beforehand is unchanged. -/
theorem C9_sstable_list_copy_on_write_witness :
    (sstListState0.apply_ops
        [SstableListOp.add 3, SstableListOp.rebuild [4] [1]]).store.getD 0 [] =
      sstListState0.store.getD 0 [] :=
  C9_sstable_list_copy_on_write
    [SstableListOp.add 3, SstableListOp.rebuild [4] [1]] sstListState0 0
    (by decide)

/-- C4 counterexample: after a rebuild that removed sstable 1 (so 1 sits in
the compacted-but-not-deleted list), a CANCELLED atomic delete still purges it
from the list, refuting the claim that on cancellation the sstables remain
until a future attempt succeeds. -/
theorem C4_cancelled_delete_still_purges :
    1 ∈ (sstListState0.rebuild_sstable_list [3] [1]).compacted_undeleted ∧
    ((sstListState0.rebuild_sstable_list [3] [1]).delete_atomically_done [1]
        DeletionOutcome.cancelled).compacted_undeleted = [] := by
  decide

/-- C4 (amended): after a compaction rebuilds the sstable list, the removed
sstables (those present in the joined old-and-new list) are moved into the
compacted-but-not-deleted list and dropped from the published set, and they
are purged from the compacted-but-not-deleted list when the atomic-delete
primitive completes — unconditionally, whether the deletion was confirmed or
cancelled (a cancellation is only logged); sstables outside the removed set
are unaffected by the purge. -/
theorem C4_compacted_undeleted_lifecycle :
    ∀ (st : SstableListState) (new_sstables removed : List Nat)
      (outcome : DeletionOutcome) (t : Nat),
      (t ∈ removed → t ∈ new_sstables ++ st.current_set →
        t ∈ (st.rebuild_sstable_list new_sstables removed).compacted_undeleted) ∧
      (t ∈ removed →
        t ∉ (st.rebuild_sstable_list new_sstables removed).current_set) ∧
      (t ∈ removed →
        t ∉ (st.delete_atomically_done removed outcome).compacted_undeleted) ∧
      (t ∉ removed →
        (t ∈ (st.delete_atomically_done removed outcome).compacted_undeleted ↔
          t ∈ st.compacted_undeleted)) := by
  intro st new_sstables removed outcome t
  refine ⟨?_, ?_, ?_, ?_⟩
  · intro ht hmem
    simp only [SstableListState.rebuild_sstable_list, List.mem_append,
      List.mem_filter]
    right
    refine ⟨List.mem_append.mp hmem, ?_⟩
    simp [ht]
  · intro ht
    simp [SstableListState.rebuild_sstable_list, SstableListState.current_set,
      List.getD, List.getElem?_append_right, List.mem_filter, ht]
  · intro ht
    cases outcome <;>
      simp [SstableListState.delete_atomically_done, List.mem_filter, ht]
  · intro ht
    cases outcome <;>
      simp [SstableListState.delete_atomically_done, List.mem_filter, ht]

/-- C4 witness: the lifecycle theorem applied to the concrete state: sstable 1
is moved to the compacted-but-not-deleted list by the rebuild, leaves the
published set, and is purged by a cancelled deletion. -/
theorem C4_compacted_undeleted_lifecycle_witness :
    1 ∈ (sstListState0.rebuild_sstable_list [3] [1]).compacted_undeleted ∧
    1 ∉ (sstListState0.rebuild_sstable_list [3] [1]).current_set ∧
    1 ∉ (sstListState0.delete_atomically_done [1]
          DeletionOutcome.cancelled).compacted_undeleted :=
  ⟨(C4_compacted_undeleted_lifecycle sstListState0 [3] [1]
      DeletionOutcome.cancelled 1).1 (by decide) (by decide),
   (C4_compacted_undeleted_lifecycle sstListState0 [3] [1]
      DeletionOutcome.cancelled 1).2.1 (by decide),
   (C4_compacted_undeleted_lifecycle sstListState0 [3] [1]
      DeletionOutcome.cancelled 1).2.2.1 (by decide)⟩

end Scylla
